import Mathlib

/-!
Verification of the PurC HVML interpreter core (Source/PurC/interpreter and
Source/PurC/vcm) against its natural-language specification.

Each C function referenced by a claim is shallowly embedded as an executable
Lean definition; heap pointers become explicit state records, C linked lists
become Lean lists (the bottom frame of a stack, the most recently pushed one,
is the head of the Lean list), nullable pointers become `Option`, and C
function pointers become `Option`-wrapped Lean functions.
-/

namespace PurC

/-! ## Frame stepping machine (interpreter.c, `execute_one_step_on_frame`) -/

/-- The C `enum { NEXT_STEP_AFTER_PUSHED, NEXT_STEP_ON_POPPING, NEXT_STEP_RERUN,
NEXT_STEP_SELECT_CHILD }` — the per-frame state of the stack machine. -/
inductive NextStep
  | after_pushed
  | on_popping
  | rerun
  | select_child
deriving DecidableEq, Repr

/-- The C `enum { CO_STATE_READY, CO_STATE_RUN, CO_STATE_WAIT }`. -/
inductive CoState
  | ready
  | run
  | wait
deriving DecidableEq, Repr

/-- The element-kind vtable `struct pcintr_element_ops`: four nullable function
pointers.  Handlers are modelled as pure functions from the data the C
handler actually inspects to the result the dispatcher inspects. -/
structure ElementOps (El Ctxt : Type) where
  after_pushed : Option (El → Option Ctxt)
  on_popping   : Option (Option Ctxt → Bool)
  rerun        : Option (Option Ctxt → Bool)
  select_child : Option (Option Ctxt → Option El)

/-- The C `struct pcintr_stack_frame` restricted to the fields read or written by
`execute_one_step_on_frame` and its four helpers.  DOM elements and scopes are
identified by numeric handles. -/
structure StackFrame (El Ctxt : Type) where
  ops          : ElementOps El Ctxt
  pos          : El
  ctxt         : Option Ctxt
  silently     : Bool
  edom_element : Option Nat
  scope        : Option Nat
  next_step    : NextStep

/-- The environment the interpreter consults while pushing a child frame:
`pcintr_get_ops_by_element` and `pcintr_is_element_silently` (both resolved
from the element, outside the claimed code). -/
structure InterpEnv (El Ctxt : Type) where
  get_ops_by_element  : El → ElementOps El Ctxt
  is_element_silently : El → Bool

/-- Embedding of `after_pushed` (interpreter.c:1119): call the vtable's `after_pushed`
when present; a null context sets `NEXT_STEP_ON_POPPING`, otherwise
`NEXT_STEP_SELECT_CHILD`.  (Element handlers store their freshly created
context into `frame->ctxt`; that convention is folded into the wrapper.) -/
def after_pushed_wrapper {El Ctxt : Type} (frame : StackFrame El Ctxt) :
    StackFrame El Ctxt :=
  match frame.ops.after_pushed with
  | some f =>
    match f frame.pos with
    | none   => { frame with next_step := .on_popping }
    | some c => { frame with ctxt := some c, next_step := .select_child }
  | none => { frame with next_step := .select_child }

/-- Embedding of `on_popping` (interpreter.c:1133): call the vtable's `on_popping` when
present (`ok` defaults to true); if true, pop the frame, else set
`NEXT_STEP_RERUN`.  Returns the new frame list (head = bottom frame). -/
def on_popping_wrapper {El Ctxt : Type} (frame : StackFrame El Ctxt)
    (rest : List (StackFrame El Ctxt)) : List (StackFrame El Ctxt) :=
  let ok := match frame.ops.on_popping with
            | some f => f frame.ctxt
            | none => true
  if ok then rest
  else { frame with next_step := .rerun } :: rest

/-- Embedding of `on_rerun` (interpreter.c:1149): call the vtable's `rerun` (its result is
only checked by `PC_ASSERT`), then set `NEXT_STEP_SELECT_CHILD`. -/
def on_rerun_wrapper {El Ctxt : Type} (frame : StackFrame El Ctxt) :
    StackFrame El Ctxt :=
  { frame with next_step := .select_child }

/-- The child frame pushed by `on_select_child` (interpreter.c:1176-1192):
vtable resolved by element kind, position the selected element, `silently`
recomputed, DOM insertion point inherited, scope null, initial state
`NEXT_STEP_AFTER_PUSHED`.  `calloc` zeroes the context. -/
def child_frame_for {El Ctxt : Type} (env : InterpEnv El Ctxt)
    (parent : StackFrame El Ctxt) (element : El) : StackFrame El Ctxt :=
  { ops          := env.get_ops_by_element element
    pos          := element
    ctxt         := none
    silently     := env.is_element_silently element
    edom_element := parent.edom_element
    scope        := none
    next_step    := .after_pushed }

/-- Embedding of `on_select_child` (interpreter.c:1162): call the vtable's `select_child`
when present; a null element sets `NEXT_STEP_ON_POPPING`; an element keeps the
current frame on `NEXT_STEP_SELECT_CHILD` and pushes a child frame. -/
def on_select_child_wrapper {El Ctxt : Type} (env : InterpEnv El Ctxt)
    (frame : StackFrame El Ctxt) (rest : List (StackFrame El Ctxt)) :
    List (StackFrame El Ctxt) :=
  let element := match frame.ops.select_child with
                 | some f => f frame.ctxt
                 | none => none
  match element with
  | none => { frame with next_step := .on_popping } :: rest
  | some el =>
      child_frame_for env frame el ::
        { frame with next_step := .select_child } :: rest

/-- The dispatch of `execute_one_step_on_frame` (interpreter.c:1291-1307) on
the bottom frame of a stack (head of the list).  An empty stack is returned
unchanged (the C caller asserts a frame exists). -/
def execute_one_step_dispatch {El Ctxt : Type} (env : InterpEnv El Ctxt) :
    List (StackFrame El Ctxt) → List (StackFrame El Ctxt)
  | [] => []
  | frame :: rest =>
    match frame.next_step with
    | .after_pushed => after_pushed_wrapper frame :: rest
    | .on_popping   => on_popping_wrapper frame rest
    | .rerun        => on_rerun_wrapper frame :: rest
    | .select_child => on_select_child_wrapper env frame rest

/-! ## Coroutine termination (interpreter.c, `co_is_observed` /
`terminating_co`) -/

/-- The fields of `struct pcintr_coroutine` / its embedded stack read by
`terminating_co`: the three observer lists (observers identified by numeric
handles), the coroutine state, the `except` flag, and whether the document's
`on_terminated` / `on_cleanup` hooks are still installed. -/
structure TermCo where
  common_variant_observer_list  : List Nat
  dynamic_variant_observer_list : List Nat
  native_variant_observer_list  : List Nat
  state                         : CoState
  except                        : Bool
  has_on_terminated             : Bool
  has_on_cleanup                : Bool
deriving DecidableEq, Repr

/-- Embedding of `co_is_observed` (interpreter.c:1219): early-returns `true` when any of
the three observer lists is non-empty, and then falls through to
`return true` — so it returns `true` on every input. -/
def co_is_observed (co : TermCo) : Bool :=
  if ¬ co.common_variant_observer_list.isEmpty then true
  else if ¬ co.dynamic_variant_observer_list.isEmpty then true
  else if ¬ co.native_variant_observer_list.isEmpty then true
  else true

/-- Outcome of `terminating_co`: either the coroutine survives (returned
pointer non-null) with an updated state, or it is unlinked and destroyed,
recording whether the `on_terminated` / `on_cleanup` hooks ran. -/
inductive TermOutcome
  | alive (co : TermCo)
  | destroyed (ran_on_terminated ran_on_cleanup : Bool)
deriving DecidableEq, Repr

/-- Embedding of `terminating_co` (interpreter.c:1234): clear `except`; when
`!co_is_observed(co)` set the state to `CO_STATE_WAIT` and keep the coroutine
alive; otherwise run the installed `on_terminated` / `on_cleanup` hooks,
unlink the coroutine from the heap list and destroy it. -/
def terminating_co (co : TermCo) : TermOutcome :=
  let co := { co with except := false }
  if ¬ co_is_observed co then
    .alive { co with state := .wait }
  else
    .destroyed co.has_on_terminated co.has_on_cleanup

/-! ## Theorems for C1 -/

/-- A coroutine that has finished its frame stack but still holds one common
observer (handle 7), with both document hooks still installed. -/
def c1_co : TermCo :=
  { common_variant_observer_list  := [7]
    dynamic_variant_observer_list := []
    native_variant_observer_list  := []
    state                         := .ready
    except                        := false
    has_on_terminated             := true
    has_on_cleanup                := true }

/-- C1, counterexample.  `c1_co` still has an observer in its common list, so
per the claim `terminating_co` must set its state to `CO_STATE_WAIT` and keep
it alive; instead the code runs both document hooks and destroys it. -/
theorem terminating_co_observed_destroys :
    terminating_co c1_co = .destroyed true true ∧
      terminating_co c1_co ≠ .alive { c1_co with state := .wait } := by
  decide

/-- C1, amended.  `co_is_observed` returns `true` regardless of the contents
of the three observer lists, so `terminating_co` never takes the
`CO_STATE_WAIT` branch: for every coroutine it runs the installed
`on_terminated` / `on_cleanup` hooks, unlinks the coroutine and destroys it,
even when observers remain. -/
theorem terminating_co_always_destroys (co : TermCo) :
    co_is_observed co = true ∧
      terminating_co co = .destroyed co.has_on_terminated co.has_on_cleanup := by
  constructor
  · simp only [co_is_observed]
    split <;> simp_all
  · simp only [terminating_co, co_is_observed]
    split <;> simp_all

/-! ## Theorems for C2 -/

/-- C2.  The per-step dispatch of `execute_one_step_on_frame` on the bottom
frame behaves as the claimed state machine: in `AFTER_PUSHED`, a null context
from `after_pushed` sets `ON_POPPING` and a non-null one sets `SELECT_CHILD`;
in `SELECT_CHILD`, a null result from `select_child` sets `ON_POPPING` while
an element result pushes a new frame (vtable resolved by element kind,
initial state `AFTER_PUSHED`) and leaves the current frame on `SELECT_CHILD`;
in `RERUN`, `rerun` runs and the state becomes `SELECT_CHILD`; in
`ON_POPPING`, a true return pops the frame and a false return sets `RERUN`. -/
theorem execute_one_step_dispatch_state_machine {El Ctxt : Type}
    (env : InterpEnv El Ctxt) (fr : StackFrame El Ctxt)
    (rest : List (StackFrame El Ctxt)) :
    (∀ f, fr.next_step = .after_pushed → fr.ops.after_pushed = some f →
      f fr.pos = none →
      execute_one_step_dispatch env (fr :: rest) =
        { fr with next_step := .on_popping } :: rest) ∧
    (∀ f c, fr.next_step = .after_pushed → fr.ops.after_pushed = some f →
      f fr.pos = some c →
      execute_one_step_dispatch env (fr :: rest) =
        { fr with ctxt := some c, next_step := .select_child } :: rest) ∧
    (∀ f, fr.next_step = .select_child → fr.ops.select_child = some f →
      f fr.ctxt = none →
      execute_one_step_dispatch env (fr :: rest) =
        { fr with next_step := .on_popping } :: rest) ∧
    (∀ f el, fr.next_step = .select_child → fr.ops.select_child = some f →
      f fr.ctxt = some el →
      execute_one_step_dispatch env (fr :: rest) =
        child_frame_for env fr el ::
          { fr with next_step := .select_child } :: rest ∧
      (child_frame_for env fr el).ops = env.get_ops_by_element el ∧
      (child_frame_for env fr el).next_step = .after_pushed) ∧
    (fr.next_step = .rerun →
      execute_one_step_dispatch env (fr :: rest) =
        { fr with next_step := .select_child } :: rest) ∧
    (∀ f, fr.next_step = .on_popping → fr.ops.on_popping = some f →
      f fr.ctxt = true →
      execute_one_step_dispatch env (fr :: rest) = rest) ∧
    (∀ f, fr.next_step = .on_popping → fr.ops.on_popping = some f →
      f fr.ctxt = false →
      execute_one_step_dispatch env (fr :: rest) =
        { fr with next_step := .rerun } :: rest) := by
  refine ⟨?_, ?_, ?_, ?_, ?_, ?_, ?_⟩
  · intro f hstep hops hres
    simp [execute_one_step_dispatch, hstep, after_pushed_wrapper, hops, hres]
  · intro f c hstep hops hres
    simp [execute_one_step_dispatch, hstep, after_pushed_wrapper, hops, hres]
  · intro f hstep hops hres
    simp [execute_one_step_dispatch, hstep, on_select_child_wrapper, hops, hres]
  · intro f el hstep hops hres
    refine ⟨?_, rfl, rfl⟩
    simp [execute_one_step_dispatch, hstep, on_select_child_wrapper, hops, hres]
  · intro hstep
    simp [execute_one_step_dispatch, hstep, on_rerun_wrapper]
  · intro f hstep hops hres
    simp [execute_one_step_dispatch, hstep, on_popping_wrapper, hops, hres]
  · intro f hstep hops hres
    simp [execute_one_step_dispatch, hstep, on_popping_wrapper, hops, hres]

/-- A concrete singleton vtable used to witness the dispatch theorem. -/
def c2_ops : ElementOps Nat Nat :=
  { after_pushed := some fun _ => some 5
    on_popping   := some fun _ => true
    rerun        := some fun _ => true
    select_child := some fun _ => none }

/-- A concrete environment resolving every element to `c2_ops`. -/
def c2_env : InterpEnv Nat Nat :=
  { get_ops_by_element := fun _ => c2_ops
    is_element_silently := fun _ => false }

/-- A concrete frame sitting in `NEXT_STEP_AFTER_PUSHED`. -/
def c2_frame : StackFrame Nat Nat :=
  { ops := c2_ops, pos := 0, ctxt := none, silently := false
    edom_element := some 3, scope := none, next_step := .after_pushed }

/-- C2, witness: on `c2_frame` the `AFTER_PUSHED` handler returns context `5`,
so the dispatch stores it and moves the frame to `SELECT_CHILD`. -/
theorem execute_one_step_dispatch_state_machine_witness :
    c2_frame.next_step = .after_pushed ∧
    c2_frame.ops.after_pushed = some (fun _ => some 5) ∧
    execute_one_step_dispatch c2_env [c2_frame] =
      [{ c2_frame with ctxt := some 5, next_step := .select_child }] :=
  ⟨rfl, rfl,
    (execute_one_step_dispatch_state_machine c2_env c2_frame []).2.1
      (fun _ => some 5) 5 rfl rfl rfl⟩

/-! ## Expression variables (vcm/vcm-ev.c) and change detection
(interpreter.c, `pcintr_observe_vcm_ev`) -/

/-- The C `struct pcvcm_ev` (vcm-ev.c:44) restricted to the `last_value` slot, the
only field the claimed code reads or writes; values are an abstract type `V`
and `PURC_VARIANT_INVALID` / NULL is `none`. -/
structure pcvcm_ev (V : Type) where
  last_value : Option V
deriving DecidableEq, Repr

/-- Embedding of `last_value_getter` (vcm-ev.c:97): return the stored `last_value`. -/
def last_value_getter {V : Type} (ev : pcvcm_ev V) : Option V :=
  ev.last_value

/-- Embedding of `last_value_setter` (vcm-ev.c:108): with zero arguments return
`PURC_VARIANT_INVALID` leaving the entity untouched; otherwise store
`argv[0]` into `last_value` (reference counting elided) and return it. -/
def last_value_setter {V : Type} (ev : pcvcm_ev V)
    (argv : List (Option V)) : pcvcm_ev V × Option V :=
  match argv with
  | [] => (ev, none)
  | a :: _ => ({ ev with last_value := a }, a)

/-- Embedding of `pcintr_observe_vcm_ev` (interpreter.c:3172) after the virtual frame has
produced the fresh evaluation result `new_val` (the `eval` property getter):
a null result returns immediately; otherwise the fresh result is compared to
`last_value_getter`'s answer with `purc_variant_compare_ex(..., AUTO)`
(abstracted as `compare`, since the variant comparator is outside the
interpreter sources); equality returns with no event, inequality stores the
fresh result through `last_value_setter` and dispatches exactly one `change`
message on the wrapping value.  The second component counts dispatched
change events. -/
def pcintr_observe_vcm_ev {V : Type} (compare : V → Option V → Int)
    (new_val : Option V) (ev : pcvcm_ev V) : pcvcm_ev V × Nat :=
  match new_val with
  | none => (ev, 0)
  | some v =>
    let last_value := last_value_getter ev
    if compare v last_value = 0 then
      (ev, 0)
    else
      ((last_value_setter ev [some v]).1, 1)

/-- C3.  Per event-timer scan of an observed expression variable: if the
fresh evaluation compares equal to `last_value` under the configured
comparator, no change event is dispatched and `last_value` is untouched;
if it compares unequal, `last_value` is replaced by the fresh result and
exactly one change event is dispatched. -/
theorem observe_vcm_ev_change_detection {V : Type}
    (compare : V → Option V → Int) (v : V) (ev : pcvcm_ev V) :
    (compare v (last_value_getter ev) = 0 →
      pcintr_observe_vcm_ev compare (some v) ev = (ev, 0)) ∧
    (compare v (last_value_getter ev) ≠ 0 →
      pcintr_observe_vcm_ev compare (some v) ev =
        ({ last_value := some v }, 1)) := by
  constructor
  · intro h
    simp [pcintr_observe_vcm_ev, h]
  · intro h
    simp [pcintr_observe_vcm_ev, h, last_value_setter]

/-- C3, witness: with the comparator "compare by value on `Nat`, treating a
null last value as unequal", a fresh result `2` against stored `1` swaps the
stored value and fires exactly one change event. -/
theorem observe_vcm_ev_change_detection_witness :
    (fun (v : Nat) (l : Option Nat) => match l with
      | none => (1 : Int)
      | some w => if v = w then 0 else 1) 2
        (last_value_getter ⟨some 1⟩) ≠ 0 ∧
    pcintr_observe_vcm_ev (fun v l => match l with
      | none => (1 : Int)
      | some w => if v = w then 0 else 1) (some 2) ⟨some 1⟩ =
      (⟨some 2⟩, 1) :=
  ⟨by decide,
    (observe_vcm_ev_change_detection (fun v l => match l with
      | none => (1 : Int)
      | some w => if v = w then 0 else 1) 2 ⟨some 1⟩).2 (by decide)⟩

/-- C10.  `last_value_setter` with zero arguments returns the invalid-value
sentinel and leaves the stored `last_value` unchanged; with at least one
argument it replaces `last_value` with the first argument and returns it. -/
theorem last_value_setter_spec {V : Type} (ev : pcvcm_ev V)
    (a : Option V) (rest : List (Option V)) :
    last_value_setter ev [] = (ev, none) ∧
    last_value_setter ev (a :: rest) = ({ last_value := a }, a) := by
  exact ⟨rfl, rfl⟩

/-! ## Request state machine (interpreter.c, `pcintr_cancel_req` /
`pcintr_activate_req`) -/

/-- The C `enum pcintr_req_state` (interpreter.c:521). -/
inductive pcintr_req_state
  | pending
  | activating
  | hibernating
  | cancelled
  | dying
deriving DecidableEq, Repr

/-- The C `struct pcintr_req` restricted to the fields the cancel/activate paths
touch: the state and the reference count. -/
structure pcintr_req where
  state : pcintr_req_state
  refc  : Nat
deriving DecidableEq, Repr

/-- The heap's four request queues (`struct pcintr_heap`), holding request
handles; a request node lives on the queue that matches its state. -/
structure ReqHeap where
  pending_reqs     : List Nat
  active_reqs      : List Nat
  hibernating_reqs : List Nat
  cancelled_reqs   : List Nat
  dying_reqs       : List Nat
deriving DecidableEq, Repr

/-- Result of running `pcintr_cancel_req` or `pcintr_activate_req` on one
request: the updated request and queues, how many times `ops.cancel` or the
wakeup was issued, and whether a `PC_ASSERT(0)` branch was reached. -/
structure ReqOpResult where
  req           : pcintr_req
  heap          : ReqHeap
  cancel_calls  : Nat
  wakeups       : Nat
  assert_failed : Bool
deriving DecidableEq, Repr

/-- Embedding of `pcintr_cancel_req` (interpreter.c:3508) acting on request handle `id`:
a `PENDING` request moves to state `CANCELLED` (its node re-queued from
`pending_reqs` to `cancelled_reqs`), `ops->cancel` runs once and the refcount
drops; an `ACTIVATING` request is left entirely unchanged; every other state
hits `PC_ASSERT(0)` and is also left unchanged. -/
def pcintr_cancel_req (heap : ReqHeap) (id : Nat) (req : pcintr_req) :
    ReqOpResult :=
  match req.state with
  | .pending =>
    { req  := { state := .cancelled, refc := req.refc - 1 }
      heap := { heap with
                  pending_reqs := heap.pending_reqs.erase id
                  cancelled_reqs := heap.cancelled_reqs ++ [id] }
      cancel_calls := 1, wakeups := 0, assert_failed := false }
  | .activating =>
    { req := req, heap := heap
      cancel_calls := 0, wakeups := 0, assert_failed := false }
  | _ =>
    { req := req, heap := heap
      cancel_calls := 0, wakeups := 0, assert_failed := true }

/-- Embedding of `pcintr_activate_req` (interpreter.c:3606): a `PENDING` request moves to
`ACTIVATING` (re-queued onto `active_reqs`, loop woken for
`on_req_activating`, refcount dropped); a `CANCELLED` request moves to
`DYING` (re-queued onto `dying_reqs`, loop woken for `on_req_dying`); every
other state hits `PC_ASSERT(0)`. -/
def pcintr_activate_req (heap : ReqHeap) (id : Nat) (req : pcintr_req) :
    ReqOpResult :=
  match req.state with
  | .pending =>
    { req  := { state := .activating, refc := req.refc - 1 }
      heap := { heap with
                  pending_reqs := heap.pending_reqs.erase id
                  active_reqs := heap.active_reqs ++ [id] }
      cancel_calls := 0, wakeups := 1, assert_failed := false }
  | .cancelled =>
    { req  := { state := .dying, refc := req.refc }
      heap := { heap with
                  cancelled_reqs := heap.cancelled_reqs.erase id
                  dying_reqs := heap.dying_reqs ++ [id] }
      cancel_calls := 0, wakeups := 1, assert_failed := false }
  | _ =>
    { req := req, heap := heap
      cancel_calls := 0, wakeups := 0, assert_failed := true }

/-- A heap whose only request, handle 1, sits on the active queue. -/
def c4_heap : ReqHeap :=
  { pending_reqs := [], active_reqs := [1], hibernating_reqs := []
    cancelled_reqs := [], dying_reqs := [] }

/-- C4, counterexample.  Cancelling request 1 while it is `ACTIVATING` leaves
its state, its refcount and every queue unchanged and never invokes
`ops.cancel` — the claim instead requires a transition to
`CANCELLED → DYING` with `ops.cancel` invoked exactly once. -/
theorem cancel_req_activating_is_noop :
    pcintr_cancel_req c4_heap 1 ⟨.activating, 1⟩ =
      { req := ⟨.activating, 1⟩, heap := c4_heap
        cancel_calls := 0, wakeups := 0, assert_failed := false } ∧
    (pcintr_cancel_req c4_heap 1 ⟨.activating, 1⟩).req.state ≠ .cancelled ∧
    (pcintr_cancel_req c4_heap 1 ⟨.activating, 1⟩).cancel_calls ≠ 1 := by
  decide

/-- C4, amended.  A cancel on a `PENDING` request transitions it to
`CANCELLED` (node moved to the cancelled queue) and invokes `ops.cancel`
exactly once; the further transition to `DYING` happens only when
`pcintr_activate_req` is later invoked on the cancelled request.  A cancel
on an `ACTIVATING` request is a no-op.  A cancel in any other state
(`HIBERNATING`, `CANCELLED`, `DYING`) leaves the request and queues unchanged,
does not invoke `ops.cancel`, and trips a `PC_ASSERT(0)`. -/
theorem cancel_req_state_machine (heap : ReqHeap) (id : Nat)
    (req : pcintr_req) :
    (req.state = .pending →
      pcintr_cancel_req heap id req =
        { req  := { state := .cancelled, refc := req.refc - 1 }
          heap := { heap with
                      pending_reqs := heap.pending_reqs.erase id
                      cancelled_reqs := heap.cancelled_reqs ++ [id] }
          cancel_calls := 1, wakeups := 0, assert_failed := false }) ∧
    (req.state = .cancelled →
      (pcintr_activate_req heap id req).req.state = .dying) ∧
    (req.state = .activating →
      pcintr_cancel_req heap id req =
        { req := req, heap := heap
          cancel_calls := 0, wakeups := 0, assert_failed := false }) ∧
    (req.state = .hibernating ∨ req.state = .cancelled ∨ req.state = .dying →
      pcintr_cancel_req heap id req =
        { req := req, heap := heap
          cancel_calls := 0, wakeups := 0, assert_failed := true }) := by
  obtain ⟨s, n⟩ := req
  refine ⟨?_, ?_, ?_, ?_⟩
  · rintro rfl
    rfl
  · rintro rfl
    rfl
  · rintro rfl
    rfl
  · rintro (rfl | rfl | rfl) <;> rfl

/-- C4 (amended), witness: cancelling a `PENDING` request with handle 1 on
`c4_heap` (after moving it to pending) cancels it exactly once. -/
theorem cancel_req_state_machine_witness :
    (pcintr_req.mk .pending 2).state = .pending ∧
    pcintr_cancel_req c4_heap 1 ⟨.pending, 2⟩ =
      { req := ⟨.cancelled, 1⟩
        heap := { c4_heap with cancelled_reqs := [1] }
        cancel_calls := 1, wakeups := 0, assert_failed := false } :=
  ⟨rfl, (cancel_req_state_machine c4_heap 1 ⟨.pending, 2⟩).1 rfl⟩

/-! ## $TIMERS listeners (interpreter/timer.cpp) -/

/-- A variant value as far as the timer listeners inspect one: a string, an
unsigned long, or an insertion-ordered object. -/
inductive TVal
  | str (s : String)
  | ulong (n : Nat)
  | obj (kvs : List (String × TVal))
deriving Repr

/-- Embedding of `purc_variant_object_get_by_ckey`: look a key up in an object;
`PURC_VARIANT_INVALID` (`none`) for a missing key or a non-object. -/
def purc_variant_object_get_by_ckey (v : TVal) (key : String) : Option TVal :=
  match v with
  | .obj kvs => kvs.lookup key
  | _ => none

/-- Modelled from the spec: `purc_variant_cast_to_ulongint` lives in the
variant substrate (§4.A `cast_to_numeric`), which is not under src/.  With
`force = false` a ulongint casts to itself and a non-numeric value fails,
leaving the caller's `ret` untouched. -/
def purc_variant_cast_to_ulongint (v : TVal) (force : Bool) : Option Nat :=
  match v, force with
  | .ulong n, _ => some n
  | _, _ => none

/-- Embedding of `is_euqal` (timer.cpp:195): both arguments non-null and the variant's
string payload equal to the literal. -/
def is_euqal (var : Option TVal) (comp : String) : Bool :=
  match var with
  | some (.str t) => t = comp
  | _ => false

/-- The backing `PurcTimer`: its interval (`m_interval`) and whether it has
been started (`startRepeating`) and not stopped. -/
structure PTimer where
  interval : Nat
  running  : Bool
deriving DecidableEq, Repr

/-- Embedding of `pcintr_timer_set_interval` (timer.cpp:90). -/
def pcintr_timer_set_interval (t : PTimer) (n : Nat) : PTimer :=
  { t with interval := n }

/-- Embedding of `pcintr_timer_start` (timer.cpp:107): `startRepeating(m_interval)`. -/
def pcintr_timer_start (t : PTimer) : PTimer :=
  { t with running := true }

/-- Embedding of `pcintr_timer_stop` (timer.cpp:127). -/
def pcintr_timer_stop (t : PTimer) : PTimer :=
  { t with running := false }

/-- The three listener message atoms (`pcvariant_atom_grow` / `shrink` /
`change`). -/
inductive PcvariantAtom
  | grow
  | shrink
  | change
deriving DecidableEq, Repr

/-- Embedding of `timer_listener_handler` (timer.cpp:271), acting on the backing timer of
the mutated timer object.  `argv` is documented in the source as
`key-new, value-new, key-old, value-old`.  A non-`change` message is ignored.
A change whose `argv[0]` is the key string `"interval"` casts **`argv[0]`**
(not the new value) with `cast_to_ulongint`, so `ret` keeps its initial 0,
and sets the interval to that; a change whose key is `"active"` starts the
timer when the new value `argv[1]` is `"on"` and stops it otherwise. -/
def timer_listener_handler (msg_type : PcvariantAtom)
    (argv : List (Option TVal)) (timer : PTimer) : PTimer × Bool :=
  if msg_type ≠ .change then
    (timer, true)
  else if is_euqal (argv.getD 0 none) "interval" then
    let ret : Nat :=
      ((argv.getD 0 none).bind
        (fun v => purc_variant_cast_to_ulongint v false)).getD 0
    (pcintr_timer_set_interval timer ret, true)
  else if is_euqal (argv.getD 0 none) "active" then
    if is_euqal (argv.getD 1 none) "on" then
      (pcintr_timer_start timer, true)
    else
      (pcintr_timer_stop timer, true)
  else
    (timer, true)

/-- Embedding of `timers_listener_handler` (timer.cpp:302), acting on the `$TIMERS` set.
On `grow`, `argv[0]` is the new timer object: a fresh backing timer is
created (`get_inner_timer`), its interval set from the object's `interval`
member (cast failure leaves 0), and it is started when the `active` member
equals `"on"`.  On `shrink` the backing timer is destroyed (`none`). -/
def timers_listener_handler (msg_type : PcvariantAtom)
    (argv : List (Option TVal)) (fresh : PTimer) : Option PTimer × Bool :=
  match msg_type with
  | .grow =>
    let interval := (argv.getD 0 none).bind
      (fun o => purc_variant_object_get_by_ckey o "interval")
    let active := (argv.getD 0 none).bind
      (fun o => purc_variant_object_get_by_ckey o "active")
    let ret : Nat :=
      (interval.bind (fun v => purc_variant_cast_to_ulongint v false)).getD 0
    let t := pcintr_timer_set_interval fresh ret
    if is_euqal active "on" then
      (some (pcintr_timer_start t), true)
    else
      (some t, true)
  | .shrink => (none, true)
  | .change => (some fresh, true)

/-- C5: the interval-change listener contradicts its own `argv` layout
comment.  Failing input: a `change` message for a timer object whose
`interval` member was just set to 20, i.e. `argv = [key "interval",
value 20, ...]`, backing timer currently at interval 100.  The claim (and the
source comment `argv key-new, value-new, ...`) require the backing timer's
interval to become 20; the code casts `argv[0]` — the key string
`"interval"`, which fails to cast — and sets the interval to the untouched
`ret = 0`.  The grow and active-change paths behave as claimed. -/
theorem timer_listener_interval_change_sets_zero :
    timer_listener_handler .change
        [some (.str "interval"), some (.ulong 20),
         some (.str "interval"), some (.ulong 100)]
        ⟨100, true⟩ =
      (⟨0, true⟩, true) ∧
    (0 : Nat) ≠ 20 ∧
    timer_listener_handler .change
        [some (.str "active"), some (.str "on"),
         some (.str "active"), some (.str "off")]
        ⟨100, false⟩ =
      (⟨100, true⟩, true) ∧
    timers_listener_handler .grow
        [some (.obj [("id", .str "t"), ("interval", .ulong 50),
                     ("active", .str "on")])]
        ⟨0, false⟩ =
      (some ⟨50, true⟩, true) ∧
    timers_listener_handler .shrink
        [some (.obj [("id", .str "t")])] ⟨50, true⟩ = (none, true) := by
  decide

/-! ## Observer matching (interpreter.c, `is_observer_match`) -/

/-- One regex atom: a literal character (plain or backslash-escaped) or the
`.` wildcard. -/
inductive RAtom
  | lit (c : Char)
  | dot
deriving DecidableEq, Repr

/-- Compile a pattern string into atoms, each flagged when followed by `+`
(one-or-more).  A backslash escapes the next character. -/
def compileRE : List Char → List (RAtom × Bool)
  | [] => []
  | '\\' :: c :: '+' :: r => (.lit c, true) :: compileRE r
  | '\\' :: c :: r => (.lit c, false) :: compileRE r
  | '.' :: '+' :: r => (.dot, true) :: compileRE r
  | '.' :: r => (.dot, false) :: compileRE r
  | c :: '+' :: r => (.lit c, true) :: compileRE r
  | c :: r => (.lit c, false) :: compileRE r

/-- Whether one atom matches one character. -/
def ratom_match : RAtom → Char → Bool
  | .lit d, c => c = d
  | .dot, _ => true

/-- Whether the compiled pattern matches the whole character list, with
backtracking for `+`. -/
def tokens_match (p : List (RAtom × Bool)) : List Char → Bool
  | [] => p.isEmpty
  | c :: s =>
    match p with
    | [] => false
    | (a, plus) :: rest =>
      ratom_match a c &&
        (if plus then tokens_match ((a, true) :: rest) s || tokens_match rest s
         else tokens_match rest s)

/-- Modelled from the spec: `pcregex_is_match` (the regex helper of the utils
module, not under src/).  §3.G: "`sub_type_pattern` is either an exact string
or a compiled regex; a null pattern matches anything of the given type", so a
null pattern matches, a non-null pattern is matched as a regex against the
message sub-type (an exact string is the regex of its literal characters),
and a non-null pattern never matches an absent sub-type. -/
def pcregex_is_match (pattern : Option String) (s : Option String) : Bool :=
  match pattern with
  | none => true
  | some p =>
    match s with
    | none => false
    | some str => tokens_match (compileRE p.toList) str.toList

/-- The C `struct pcintr_observer` restricted to the fields `is_observer_match`
reads; variants and atoms are identified by numeric handles (C pointer /
atom identity). -/
structure Observer where
  observed      : Nat
  msg_type_atom : Nat
  sub_type      : Option String
deriving DecidableEq, Repr

/-- The C pointer comparison `observer->sub_type == sub_type`: the observer's
pattern is a private `strdup`ed buffer, so the two `char *` coincide exactly
when both are NULL. -/
def c_str_ptr_eq (a b : Option String) : Bool :=
  a.isNone && b.isNone

/-- Embedding of `is_observer_match` (interpreter.c:2005): observed values identical, the
message-type atoms equal, and the sub-type pattern equal as a pointer or
matched by `pcregex_is_match`. -/
def is_observer_match (observer : Observer) (observed : Nat)
    (type_atom : Nat) (sub_type : Option String) : Bool :=
  if observer.observed = observed ∧ observer.msg_type_atom = type_atom then
    if c_str_ptr_eq observer.sub_type sub_type ||
        pcregex_is_match observer.sub_type sub_type then
      true
    else
      false
  else
    false

/-- The matching predicate as the spec words it: the observed value is
identical to the message source, the type atoms are equal, and the sub-type
pattern (null matches any sub-type of the given type; otherwise an exact
string or regex matched against the sub-type) matches. -/
def observer_match_spec (observer : Observer) (observed : Nat)
    (type_atom : Nat) (sub_type : Option String) : Bool :=
  decide (observer.observed = observed) &&
  decide (observer.msg_type_atom = type_atom) &&
  (match observer.sub_type with
   | none => true
   | some p =>
     match sub_type with
     | none => false
     | some s => tokens_match (compileRE p.toList) s.toList)

/-- C6.  An observer matches a dispatched message exactly under the spec's
condition (source identity, type-atom equality, sub-type pattern match with
a null pattern matching anything); and the pattern `"click\\..+"` matches
sub-type `"click.primary"` but matches neither `"click"` nor
`"clicker.primary"`. -/
theorem is_observer_match_spec (observer : Observer) (observed : Nat)
    (type_atom : Nat) (sub_type : Option String) :
    is_observer_match observer observed type_atom sub_type =
      observer_match_spec observer observed type_atom sub_type ∧
    is_observer_match ⟨1, 2, some "click\\..+"⟩ 1 2 (some "click.primary")
      = true ∧
    is_observer_match ⟨1, 2, some "click\\..+"⟩ 1 2 (some "click")
      = false ∧
    is_observer_match ⟨1, 2, some "click\\..+"⟩ 1 2 (some "clicker.primary")
      = false := by
  refine ⟨?_, by decide, by decide, by decide⟩
  obtain ⟨o, t, st⟩ := observer
  simp only [is_observer_match, observer_match_spec, c_str_ptr_eq,
    pcregex_is_match]
  rcases st with _ | p <;> rcases sub_type with _ | s <;>
    by_cases ho : o = observed <;> by_cases ht : t = type_atom <;>
      simp [ho, ht]

/-! ## Observer registration and revocation (interpreter.c,
`pcintr_register_observer` / `pcintr_revoke_observer`) -/

/-- The variant type tags `pcintr_register_observer` dispatches on:
`PURC_VARIANT_TYPE_DYNAMIC`, `PURC_VARIANT_TYPE_NATIVE`, and everything
else. -/
inductive purc_variant_type
  | dynamic
  | native
  | other
deriving DecidableEq, Repr

/-- An observer record as the registration code handles it: its allocation
identity (each `calloc` in `pcintr_register_observer` yields a fresh record)
and the type tag of its observed value. -/
structure RegObserver where
  id            : Nat
  observed_type : purc_variant_type
deriving DecidableEq, Repr

/-- The observer-related state of a coroutine: the three lists hanging off
`struct pcintr_stack` and the owner coroutine's `waits` counter. -/
structure ObserverLists where
  common_variant_observer_list  : List RegObserver
  dynamic_variant_observer_list : List RegObserver
  native_variant_observer_list  : List RegObserver
  waits : Nat
deriving DecidableEq, Repr

/-- All observers of the coroutine, in list order. -/
def all_observers (st : ObserverLists) : List RegObserver :=
  st.common_variant_observer_list ++ st.dynamic_variant_observer_list ++
    st.native_variant_observer_list

/-- The allocation identities of all observers of the coroutine. -/
def obs_ids (st : ObserverLists) : List Nat :=
  (all_observers st).map (·.id)

/-- Embedding of `pcintr_register_observer` (interpreter.c:1926): select the list by the
observed value's type (`DYNAMIC` / `NATIVE` / everything else), then
`add_observer_into_list`: append the fresh record (`list_add_tail`) and
increment the coroutine's `waits`. -/
def pcintr_register_observer (st : ObserverLists) (o : RegObserver) :
    ObserverLists :=
  match o.observed_type with
  | .dynamic =>
    { st with
        dynamic_variant_observer_list :=
          st.dynamic_variant_observer_list ++ [o]
        waits := st.waits + 1 }
  | .native =>
    { st with
        native_variant_observer_list :=
          st.native_variant_observer_list ++ [o]
        waits := st.waits + 1 }
  | .other =>
    { st with
        common_variant_observer_list :=
          st.common_variant_observer_list ++ [o]
        waits := st.waits + 1 }

/-- Embedding of `pcintr_revoke_observer` (interpreter.c:1972): `free_observer` unlinks
the record's node from whichever list holds it (`list_del`) and frees it,
then the coroutine's `waits` is decremented. -/
def pcintr_revoke_observer_st (st : ObserverLists) (o : RegObserver) :
    ObserverLists :=
  { common_variant_observer_list :=
      st.common_variant_observer_list.erase o
    dynamic_variant_observer_list :=
      st.dynamic_variant_observer_list.erase o
    native_variant_observer_list :=
      st.native_variant_observer_list.erase o
    waits := st.waits - 1 }

/-- The C7 invariant: observer identities are pairwise distinct across the
three lists (each observer record appears in exactly one list, exactly
once), each list holds only observers of its designated kind, and `waits`
dominates the total observer count. -/
def ObserverInv (st : ObserverLists) : Prop :=
  (obs_ids st).Nodup ∧
  (∀ o ∈ st.dynamic_variant_observer_list, o.observed_type = .dynamic) ∧
  (∀ o ∈ st.native_variant_observer_list, o.observed_type = .native) ∧
  (∀ o ∈ st.common_variant_observer_list, o.observed_type = .other) ∧
  (all_observers st).length ≤ st.waits

/-- Appending to the middle list of a three-list concatenation permutes to a
cons. -/
theorem append_singleton_mid_perm {α : Type} (i : α) (c d n : List α) :
    List.Perm ((c ++ (d ++ [i])) ++ n) (i :: ((c ++ d) ++ n)) := by
  have h : (c ++ (d ++ [i])) ++ n = (c ++ d) ++ (i :: n) := by
    simp
  rw [h]
  exact List.perm_middle

/-- Appending to the first list of a three-list concatenation permutes to a
cons. -/
theorem append_singleton_left_perm {α : Type} (i : α) (c d n : List α) :
    List.Perm (((c ++ [i]) ++ d) ++ n) (i :: ((c ++ d) ++ n)) := by
  have h : ((c ++ [i]) ++ d) ++ n = c ++ (i :: (d ++ n)) := by
    simp
  rw [h]
  refine List.Perm.trans List.perm_middle ?_
  simp

/-- Appending to the last list of a three-list concatenation permutes to a
cons. -/
theorem append_singleton_right_perm {α : Type} (i : α) (c d n : List α) :
    List.Perm ((c ++ d) ++ (n ++ [i])) (i :: ((c ++ d) ++ n)) := by
  refine List.Perm.trans
    (List.Perm.append_left (c ++ d) (List.perm_append_singleton i n)) ?_
  exact List.perm_middle

/-- C7.  Registration and revocation maintain the observer invariant: the
empty coroutine satisfies it; registering a fresh observer files it into the
list selected by the observed value's kind, keeps every observer in exactly
one list, and increments `waits` by one; revoking an observer removes it and
decrements `waits` by one; and under the invariant every observer occurs
exactly once, in precisely the list matching its kind, with
`waits ≥ total number of observers` throughout. -/
theorem observer_lists_register_revoke (st : ObserverLists)
    (o : RegObserver) :
    ObserverInv ⟨[], [], [], 0⟩ ∧
    (ObserverInv st → o.id ∉ obs_ids st →
      ObserverInv (pcintr_register_observer st o) ∧
      (pcintr_register_observer st o).waits = st.waits + 1 ∧
      o ∈ all_observers (pcintr_register_observer st o)) ∧
    (ObserverInv st → o ∈ all_observers st →
      ObserverInv (pcintr_revoke_observer_st st o) ∧
      (pcintr_revoke_observer_st st o).waits = st.waits - 1) ∧
    (ObserverInv st → o ∈ all_observers st →
      (all_observers st).count o = 1 ∧
      (o ∈ st.dynamic_variant_observer_list ↔ o.observed_type = .dynamic) ∧
      (o ∈ st.native_variant_observer_list ↔ o.observed_type = .native) ∧
      (o ∈ st.common_variant_observer_list ↔ o.observed_type = .other)) := by
  obtain ⟨c, d, n, w⟩ := st
  refine ⟨?_, ?_, ?_, ?_⟩
  · refine ⟨by simp [obs_ids, all_observers], ?_, ?_, ?_, ?_⟩ <;>
      simp [all_observers]
  · rintro ⟨hnd, hdyn, hnat, hcom, hw⟩ hfresh
    have hperm : List.Perm
        (all_observers (pcintr_register_observer ⟨c, d, n, w⟩ o))
        (o :: all_observers ⟨c, d, n, w⟩) := by
      rcases ho : o.observed_type with _ | _ | _ <;>
        simp only [all_observers, pcintr_register_observer, ho]
      · exact append_singleton_mid_perm o c d n
      · exact append_singleton_right_perm o c d n
      · exact append_singleton_left_perm o c d n
    have hpid : List.Perm
        (obs_ids (pcintr_register_observer ⟨c, d, n, w⟩ o))
        (o.id :: obs_ids ⟨c, d, n, w⟩) := by
      have h := hperm.map (fun x : RegObserver => x.id)
      simpa [obs_ids] using h
    refine ⟨⟨?_, ?_, ?_, ?_, ?_⟩, ?_, ?_⟩
    · exact hpid.nodup_iff.mpr (List.nodup_cons.mpr ⟨hfresh, hnd⟩)
    · rcases ho : o.observed_type with _ | _ | _ <;>
        simp only [pcintr_register_observer, ho]
      · intro x hx
        rcases List.mem_append.mp hx with hx | hx
        · exact hdyn x hx
        · rw [List.mem_singleton.mp hx]
          exact ho
      · exact hdyn
      · exact hdyn
    · rcases ho : o.observed_type with _ | _ | _ <;>
        simp only [pcintr_register_observer, ho]
      · exact hnat
      · intro x hx
        rcases List.mem_append.mp hx with hx | hx
        · exact hnat x hx
        · rw [List.mem_singleton.mp hx]
          exact ho
      · exact hnat
    · rcases ho : o.observed_type with _ | _ | _ <;>
        simp only [pcintr_register_observer, ho]
      · exact hcom
      · exact hcom
      · intro x hx
        rcases List.mem_append.mp hx with hx | hx
        · exact hcom x hx
        · rw [List.mem_singleton.mp hx]
          exact ho
    · have hlen := hperm.length_eq
      have hwaits : (pcintr_register_observer ⟨c, d, n, w⟩ o).waits
          = w + 1 := by
        rcases ho : o.observed_type with _ | _ | _ <;>
          simp only [pcintr_register_observer, ho]
      rw [hlen, hwaits]
      simpa using Nat.succ_le_succ hw
    · rcases ho : o.observed_type with _ | _ | _ <;>
        simp only [pcintr_register_observer, ho]
    · exact hperm.mem_iff.mpr (List.mem_cons_self o _)
  · rintro ⟨hnd, hdyn, hnat, hcom, hw⟩ hmem
    have hrec : (all_observers ⟨c, d, n, w⟩).Nodup :=
      List.Nodup.of_map _ hnd
    have hrec' : ((c ++ d) ++ n).Nodup := hrec
    have hnd_cd : (c ++ d).Nodup := hrec'.of_append_left
    have hdisj_cdn : List.Disjoint (c ++ d) n :=
      List.disjoint_of_nodup_append hrec'
    have hdisj_cd : List.Disjoint c d :=
      List.disjoint_of_nodup_append hnd_cd
    have hsub : List.Sublist
        (all_observers (pcintr_revoke_observer_st ⟨c, d, n, w⟩ o))
        (all_observers ⟨c, d, n, w⟩) := by
      simp only [all_observers, pcintr_revoke_observer_st]
      exact ((c.erase_sublist o).append (d.erase_sublist o)).append
        (n.erase_sublist o)
    have hlen1 : (all_observers
        (pcintr_revoke_observer_st ⟨c, d, n, w⟩ o)).length + 1 =
        (all_observers ⟨c, d, n, w⟩).length := by
      rcases List.mem_append.mp hmem with hcd | hn
      · rcases List.mem_append.mp hcd with hc | hd
        · have h1 : (c.erase o).length + 1 = c.length :=
            List.length_erase_add_one hc
          have h2 : d.erase o = d :=
            List.erase_of_not_mem (fun hd => hdisj_cd hc hd)
          have h3 : n.erase o = n :=
            List.erase_of_not_mem
              (fun hn => hdisj_cdn (List.mem_append.mpr (.inl hc)) hn)
          simp only [all_observers, pcintr_revoke_observer_st, h2, h3,
            List.length_append]
          omega
        · have h1 : (d.erase o).length + 1 = d.length :=
            List.length_erase_add_one hd
          have h2 : c.erase o = c :=
            List.erase_of_not_mem (fun hc => hdisj_cd hc hd)
          have h3 : n.erase o = n :=
            List.erase_of_not_mem
              (fun hn => hdisj_cdn (List.mem_append.mpr (.inr hd)) hn)
          simp only [all_observers, pcintr_revoke_observer_st, h2, h3,
            List.length_append]
          omega
      · have h1 : (n.erase o).length + 1 = n.length :=
          List.length_erase_add_one hn
        have h2 : c.erase o = c :=
          List.erase_of_not_mem
            (fun hc => hdisj_cdn (List.mem_append.mpr (.inl hc)) hn)
        have h3 : d.erase o = d :=
          List.erase_of_not_mem
            (fun hd => hdisj_cdn (List.mem_append.mpr (.inr hd)) hn)
        simp only [all_observers, pcintr_revoke_observer_st, h2, h3,
          List.length_append]
        omega
    have hnd' : (List.map (fun x => x.id)
        (all_observers ⟨c, d, n, w⟩)).Nodup := hnd
    refine ⟨⟨?_, ?_, ?_, ?_, ?_⟩, rfl⟩
    · exact (hsub.map (fun x => x.id)).nodup hnd'
    · exact fun x hx =>
        hdyn x (List.mem_of_mem_erase hx)
    · exact fun x hx =>
        hnat x (List.mem_of_mem_erase hx)
    · exact fun x hx =>
        hcom x (List.mem_of_mem_erase hx)
    · have hwl : (all_observers ⟨c, d, n, w⟩).length ≤ w := hw
      have hww : (pcintr_revoke_observer_st ⟨c, d, n, w⟩ o).waits
          = w - 1 := rfl
      rw [hww]
      omega
  · rintro ⟨hnd, hdyn, hnat, hcom, hw⟩ hmem
    have hrec : (all_observers ⟨c, d, n, w⟩).Nodup :=
      List.Nodup.of_map _ hnd
    refine ⟨List.count_eq_one_of_mem hrec hmem, ?_, ?_, ?_⟩
    · constructor
      · exact fun hx => hdyn o hx
      · intro ho
        rcases List.mem_append.mp hmem with hcd | hn
        · rcases List.mem_append.mp hcd with hc | hd
          · have := hcom o hc
            rw [this] at ho
            cases ho
          · exact hd
        · have := hnat o hn
          rw [this] at ho
          cases ho
    · constructor
      · exact fun hx => hnat o hx
      · intro ho
        rcases List.mem_append.mp hmem with hcd | hn
        · rcases List.mem_append.mp hcd with hc | hd
          · have := hcom o hc
            rw [this] at ho
            cases ho
          · have := hdyn o hd
            rw [this] at ho
            cases ho
        · exact hn
    · constructor
      · exact fun hx => hcom o hx
      · intro ho
        rcases List.mem_append.mp hmem with hcd | hn
        · rcases List.mem_append.mp hcd with hc | hd
          · exact hc
          · have := hdyn o hd
            rw [this] at ho
            cases ho
        · have := hnat o hn
          rw [this] at ho
          cases ho

/-- C7, witness: registering observer 1 (on a dynamic value) into the empty
coroutine satisfies the invariant's hypotheses and bumps `waits` to 1. -/
theorem observer_lists_register_revoke_witness :
    ObserverInv ⟨[], [], [], 0⟩ ∧
    (pcintr_register_observer ⟨[], [], [], 0⟩ ⟨1, .dynamic⟩).waits = 0 + 1 ∧
    ObserverInv (pcintr_register_observer ⟨[], [], [], 0⟩ ⟨1, .dynamic⟩) :=
  ⟨(observer_lists_register_revoke ⟨[], [], [], 0⟩ ⟨1, .dynamic⟩).1,
   ((observer_lists_register_revoke ⟨[], [], [], 0⟩ ⟨1, .dynamic⟩).2.1
      (observer_lists_register_revoke ⟨[], [], [], 0⟩ ⟨1, .dynamic⟩).1
      (by simp [obs_ids, all_observers])).2.1,
   ((observer_lists_register_revoke ⟨[], [], [], 0⟩ ⟨1, .dynamic⟩).2.1
      (observer_lists_register_revoke ⟨[], [], [], 0⟩ ⟨1, .dynamic⟩).1
      (by simp [obs_ids, all_observers])).1⟩

/-! ## Frame symbol variables (interpreter.c, `init_symvals_with_vals` /
`push_stack_frame_normal`) -/

/-- Modelled from the spec: the public enum `purc_symbol_var` (declared in a
header outside src/) — a fixed small set of symbols `?`, `@`, `!`, `%`, `<`
plus two reserved entries (§3.E "seven symbol variables indexed by a small
fixed set"). -/
inductive purc_symbol_var
  | question_mark
  | at_sign
  | exclamation
  | percent_sign
  | less_than
  | reserved_a
  | reserved_b
deriving DecidableEq, Repr

/-- A variant value as the symbol-variable initialisers produce one. -/
inductive SymValue
  | undefined
  | ulongint (n : Nat)
  | object (kvs : List (String × SymValue))
  | elements (edom : Nat)
deriving Repr

/-- The `symbol_vars` array of a frame: one nullable variant per symbol
(`calloc` leaves every slot null). -/
def SymArray : Type := purc_symbol_var → Option SymValue

/-- Embedding of `init_undefined_symvals` (interpreter.c:762): store `undefined` into
every slot. -/
def init_undefined_symvals (_a : SymArray) : SymArray :=
  fun _ => some .undefined

/-- Embedding of `init_percent_symval` (interpreter.c:711): `$0%` becomes
`make_ulongint(0)`. -/
def init_percent_symval (a : SymArray) : SymArray :=
  fun s => if s = .percent_sign then some (.ulongint 0) else a s

/-- Embedding of `init_at_symval` (interpreter.c:726): when the frame has a parent with a
non-null `edom_element`, `$0@` becomes `pcdvobjs_make_elements` of that
element; otherwise the function returns without touching the slot.
`parent_edom = some e` states that a parent frame with DOM element `e`
exists. -/
def init_at_symval (parent_edom : Option Nat) (a : SymArray) : SymArray :=
  match parent_edom with
  | none => a
  | some e => fun s => if s = .at_sign then some (.elements e) else a s

/-- Embedding of `init_exclamation_symval` (interpreter.c:745): `$0!` becomes
`make_object(0, ...)`, the empty object. -/
def init_exclamation_symval (a : SymArray) : SymArray :=
  fun s => if s = .exclamation then some (.object []) else a s

/-- The C `enum pcintr_stack_frame_type`. -/
inductive stack_frame_type
  | normal
  | pseudo
deriving DecidableEq, Repr

/-- Embedding of `init_symvals_with_vals` (interpreter.c:778): every slot becomes
`undefined`; a pseudo frame stops there; a normal frame then initialises
`%`, `@` and `!`. -/
def init_symvals_with_vals (ftype : stack_frame_type)
    (parent_edom : Option Nat) (a : SymArray) : SymArray :=
  let a := init_undefined_symvals a
  match ftype with
  | .pseudo => a
  | .normal =>
    init_exclamation_symval (init_at_symval parent_edom
      (init_percent_symval a))

/-- The `symbol_vars` of a frame freshly pushed by
`push_stack_frame_normal` (interpreter.c:839): `calloc` zeroes the array,
then `init_symvals_with_vals` runs with type `NORMAL`. -/
def push_stack_frame_normal_symvals (parent_edom : Option Nat) : SymArray :=
  init_symvals_with_vals .normal parent_edom (fun _ => none)

/-- C8.  After a normal frame is pushed, every symbol slot is non-null, and
the defaults are: `%` ↦ unsigned 0, `!` ↦ the empty object, `@` ↦ an
elements-reference to the parent frame's DOM insertion point when a parent
with a DOM point exists (undefined otherwise), and every remaining symbol ↦
undefined. -/
theorem push_frame_symbol_defaults (parent_edom : Option Nat) :
    (∀ s, push_stack_frame_normal_symvals parent_edom s ≠ none) ∧
    push_stack_frame_normal_symvals parent_edom .percent_sign =
      some (.ulongint 0) ∧
    push_stack_frame_normal_symvals parent_edom .exclamation =
      some (.object []) ∧
    (∀ e, parent_edom = some e →
      push_stack_frame_normal_symvals parent_edom .at_sign =
        some (.elements e)) ∧
    (parent_edom = none →
      push_stack_frame_normal_symvals parent_edom .at_sign =
        some .undefined) ∧
    push_stack_frame_normal_symvals parent_edom .question_mark =
      some .undefined ∧
    push_stack_frame_normal_symvals parent_edom .less_than =
      some .undefined ∧
    push_stack_frame_normal_symvals parent_edom .reserved_a =
      some .undefined ∧
    push_stack_frame_normal_symvals parent_edom .reserved_b =
      some .undefined := by
  rcases parent_edom with _ | e <;>
    refine ⟨fun s => ?_, ?_, ?_, ?_, ?_, ?_, ?_, ?_, ?_⟩ <;>
      first
        | (intro x hx
           simp_all [push_stack_frame_normal_symvals, init_symvals_with_vals,
             init_undefined_symvals, init_percent_symval, init_at_symval,
             init_exclamation_symval])
        | (cases s <;>
            simp [push_stack_frame_normal_symvals, init_symvals_with_vals,
              init_undefined_symvals, init_percent_symval, init_at_symval,
              init_exclamation_symval])
        | simp [push_stack_frame_normal_symvals, init_symvals_with_vals,
            init_undefined_symvals, init_percent_symval, init_at_symval,
            init_exclamation_symval]

/-- C8, witness: with a parent frame whose DOM element is 3, `@` is an
elements-reference to element 3 and `%` is unsigned 0. -/
theorem push_frame_symbol_defaults_witness :
    (some 3 : Option Nat) = some 3 ∧
    push_stack_frame_normal_symvals (some 3) .at_sign =
      some (.elements 3) ∧
    push_stack_frame_normal_symvals (some 3) .percent_sign =
      some (.ulongint 0) :=
  ⟨rfl, (push_frame_symbol_defaults (some 3)).2.2.2.1 3 rfl,
    (push_frame_symbol_defaults (some 3)).2.1⟩

/-! ## The `match` element (interpreter/match.c) -/

/-- Embedding of `purc_variant_get_string_const`: the string payload, NULL otherwise. -/
def purc_variant_get_string_const (v : TVal) : Option String :=
  match v with
  | .str s => some s
  | _ => none

/-- The C `struct ctxt_for_match` (match.c:46): the child cursor (index of the
last visited child node), the referenced `for` attribute value, and the two
flags. -/
structure ctxt_for_match where
  curr           : Option Nat
  for_var        : Option TVal
  is_exclusively : Bool
  matched        : Bool
deriving Repr

/-- Embedding of `post_process` (match.c:71).  No `"for"` key in the evaluated attribute
map sets `matched = true`; otherwise the `for` expression is parsed and
evaluated against the parent's child-result `$0?` by the `match_for`
executor (outside src/, abstracted as `match_for_eval`).  Then the
`exclusively` / `excl` attributes set `is_exclusively`. -/
def post_process (match_for_eval : Option String → TVal → Bool)
    (attr_vars : TVal) (parent_result : TVal) (ctxt : ctxt_for_match) :
    ctxt_for_match :=
  let for_var := purc_variant_object_get_by_ckey attr_vars "for"
  let ctxt1 :=
    match for_var with
    | none => { ctxt with matched := true }
    | some v =>
      { ctxt with
          for_var := some v
          matched := match_for_eval (purc_variant_get_string_const v)
            parent_result }
  let ctxt2 :=
    if (purc_variant_object_get_by_ckey attr_vars "exclusively").isSome then
      { ctxt1 with is_exclusively := true }
    else
      ctxt1
  if !ctxt2.is_exclusively &&
      (purc_variant_object_get_by_ckey attr_vars "excl").isSome then
    { ctxt2 with is_exclusively := true }
  else
    ctxt2

/-- A vdom child node as `select_child` classifies it. -/
inductive pcvdom_node
  | element (el : Nat)
  | content
  | comment
deriving DecidableEq, Repr

/-- The `again:` loop of `select_child` (match.c:263): starting at child
index `i`, skip content and comment nodes and return the first element child
together with its index (the updated `ctxt->curr`); `none` at the end. -/
def find_element_aux : List pcvdom_node → Nat → Option (Nat × Nat)
  | [], _ => none
  | .element el :: _, i => some (i, el)
  | _ :: rest, i => find_element_aux rest (i + 1)

/-- Iterate the element children from the cursor: `curr == NULL` starts at
the first child, otherwise at the next sibling. -/
def next_element_child (children : List pcvdom_node) (curr : Option Nat) :
    Option (Nat × Nat) :=
  let start := match curr with
               | none => 0
               | some i => i + 1
  find_element_aux (children.drop start) start

/-- Embedding of `select_child` (match.c:244): `!ctxt->matched` returns NULL immediately;
otherwise the child cursor advances over the element's children, skipping
content and comments, yielding the next element child.  The result of
`select_child` depends on the context only through `matched` and `curr`. -/
def match_select_child (children : List pcvdom_node) (matched : Bool)
    (curr : Option Nat) : Option (Nat × Nat) :=
  if !matched then none
  else next_element_child children curr

/-- C9.  A `match` element whose evaluated attribute map has no `"for"` key
gets `matched = true` from `post_process` — as does one whose for-expression
matched the parent's child-result — and `select_child` then iterates the
children unconditionally, exactly the iteration `next_element_child`;
with `matched = false` it selects nothing. -/
theorem match_no_for_matches_unconditionally
    (match_for_eval : Option String → TVal → Bool) (attrs pr : TVal)
    (ctxt : ctxt_for_match) (children : List pcvdom_node)
    (curr : Option Nat) :
    (purc_variant_object_get_by_ckey attrs "for" = none →
      (post_process match_for_eval attrs pr ctxt).matched = true) ∧
    (∀ v, purc_variant_object_get_by_ckey attrs "for" = some v →
      match_for_eval (purc_variant_get_string_const v) pr = true →
      (post_process match_for_eval attrs pr ctxt).matched = true) ∧
    match_select_child children true curr = next_element_child children curr ∧
    match_select_child children false curr = none := by
  refine ⟨?_, ?_, rfl, rfl⟩
  · intro h
    simp only [post_process, h]
    split <;> split <;> simp
  · intro v hv hf
    simp only [post_process, hv, hf]
    split <;> split <;> simp

/-- C9, witness: an attribute map carrying only `exclusively` (no `"for"`
key) matches unconditionally, and iterating the children from a null cursor
skips the leading content node and selects element 9 at index 1. -/
theorem match_no_for_matches_unconditionally_witness :
    purc_variant_object_get_by_ckey
      (.obj [("exclusively", .str "")]) "for" = none ∧
    (post_process (fun _ _ => false) (.obj [("exclusively", .str "")])
      (.str "hello") ⟨none, none, false, false⟩).matched = true ∧
    match_select_child [.content, .element 9] true none = some (1, 9) :=
  ⟨rfl,
    (match_no_for_matches_unconditionally (fun _ _ => false)
      (.obj [("exclusively", .str "")]) (.str "hello")
      ⟨none, none, false, false⟩ [.content, .element 9] none).1 rfl,
    (match_no_for_matches_unconditionally (fun _ _ => false)
      (.obj [("exclusively", .str "")]) (.str "hello")
      ⟨none, none, false, false⟩ [.content, .element 9] none).2.2.1.trans
      rfl⟩

end PurC
